import Mathlib

/-!
# Verification of the serial log-retrieval client (`rcv_logs.py`)

Shallow embedding of the file-transfer client in
`src/LTEmod_UDPcomm_checker_periodic_wLog/rcv_logs.py`:

* `request_list` : sends `#LIST`, parses `LIST:<path>:<size>` lines;
* `request_get`  : sends `#GET <path>`, parses a `FILEBEGIN <path> <size>`
  header, receives `<size>` raw bytes under a deadline into a file, then
  checks a `FILEEND` footer line;
* the download loop and exit paths of `main`.

Strings are modelled as `List Char` (the type `Str` below); the byte
stream delivered by the device is modelled by the sequence of protocol
units the transport layer hands to the client: each `read_line` call
yields an `Option Str` (`none` = timeout), and the payload phase of a
download yields the list of raw bytes that arrive before the absolute
file deadline.  Timing is abstracted into these per-read results; the
values the client computes from them are modelled exactly.
-/

namespace RcvLogs

/-- Strings as lists of characters (Python `str` values, one `Char` per
code point). -/
abbrev Str := List Char

/-- Python `s.startswith(pre)`. -/
def strStartsWith (s pre : Str) : Bool := pre.isPrefixOf s

/-- Characters stripped by Python `str.strip()` (ASCII whitespace). -/
def isPySpace (c : Char) : Bool :=
  c = ' ' || c = '\t' || c = '\n' || c = '\r' || c = '\x0b' || c = '\x0c'

/-- Python `str.strip()`: drop leading and trailing whitespace. -/
def pyStrip (s : Str) : Str :=
  ((s.dropWhile isPySpace).reverse.dropWhile isPySpace).reverse

/-- Split a char list at the FIRST occurrence of `c`; `none` when `c`
does not occur.  (The pieces do not contain the separator.) -/
def splitFirstChar (c : Char) : Str → Option (Str × Str)
  | [] => none
  | x :: xs =>
    if x = c then some ([], xs)
    else (splitFirstChar c xs).map (fun p => (x :: p.1, p.2))

/-- Split a char list at the LAST occurrence of `c`; `none` when `c`
does not occur.  Models Python `s.rsplit(c, 1)` (which returns `[s]`,
i.e. no split, when `c` is absent). -/
def splitLastChar (c : Char) : Str → Option (Str × Str)
  | [] => none
  | x :: xs =>
    match splitLastChar c xs with
    | some p => some (x :: p.1, p.2)
    | none => if x = c then some ([], xs) else none

/-- Python `s.split(sep, maxsplit)` for a single-character separator:
split at the first `n` occurrences of `c`. -/
def splitMax (c : Char) : Nat → Str → List Str
  | 0, s => [s]
  | n + 1, s =>
    match splitFirstChar c s with
    | none => [s]
    | some (a, b) => a :: splitMax c n b

/-- Accumulating core of the decimal parser: consumes ASCII digits,
allowing single underscores strictly between digits (Python's numeric
literal rule for `int()`). -/
def digitsCore : Str → Nat → Option Nat
  | [], acc => some acc
  | c :: cs, acc =>
    if c.isDigit then digitsCore cs (acc * 10 + (c.toNat - 48))
    else if c = '_' then
      match cs with
      | c2 :: _ => if c2.isDigit then digitsCore cs acc else none
      | [] => none
    else none

/-- Parse a non-empty ASCII digit string (underscores allowed between
digits) to its value; `none` on anything else. -/
def parseDigits : Str → Option Nat
  | [] => none
  | c :: cs => if c.isDigit then digitsCore (c :: cs) 0 else none

/-- Python `int(s)` on decimal text: strip whitespace, optional sign,
ASCII digits (with Python's underscore rule).  `none` models the
`ValueError` the code catches. -/
def pythonInt (s : Str) : Option Int :=
  match pyStrip s with
  | '+' :: cs => (parseDigits cs).map (fun n => (n : Int))
  | '-' :: cs => (parseDigits cs).map (fun n => -(n : Int))
  | cs => (parseDigits cs).map (fun n => (n : Int))

/-! ## Listing (`request_list`) -/

/-- Parse the body of a line already known to start with `LIST:`:
`rest = ln[5:]` is split at its last colon into `(path, size_s)`
(`rsplit(":", 1)`; an absent colon raises the `ValueError` the code
catches), the size text goes through `int`, and the path is stripped.
`none` models the caught exception (the `[WARN]` branch). -/
def parseListLine (ln : Str) : Option (Str × Int) :=
  match splitLastChar ':' (ln.drop 5) with
  | none => none
  | some (p, t) =>
    match pythonInt t with
    | some n => some (pyStrip p, n)
    | none => none

/-- `request_list` over the sequence of lines received before the
terminating timeout: each `LIST:`-prefixed line is parsed and appended
(malformed ones are skipped with a warning); an `ERR:` line or any
other line — and the end of the received lines (persistent timeout) —
terminates the listing. -/
def requestList : List Str → List (Str × Int)
  | [] => []
  | ln :: rest =>
    if strStartsWith ln ("LIST:".toList) then
      match parseListLine ln with
      | some e => e :: requestList rest
      | none => requestList rest
    else []

/-- The device line announcing a file: `LIST:<path>:<size-text>`. -/
def mkListLine (p t : Str) : Str := "LIST:".toList ++ p ++ ':' :: t

/-- A well-formed listing entry as the protocol intends it: the path
carries no surrounding whitespace (so `strip` is the identity), the
size text contains no colon (the spec: "the size field never does"),
and it parses as a decimal integer `s`. -/
def wfEntry (p t : Str) (s : Int) : Prop :=
  pyStrip p = p ∧ ':' ∉ t ∧ pythonInt t = some s

instance (p t : Str) (s : Int) : Decidable (wfEntry p t s) := by
  unfold wfEntry; infer_instance

/-! ## Download (`request_get`) -/

/-- Parse the `FILEBEGIN` header: `hdr.split(" ", 2)` must unpack into
exactly three parts `_, recv_path, size_s` (fewer raises the
`ValueError` the code catches) and `int(size_s.strip())` must parse. -/
def parseHeader (hdr : Str) : Option (Str × Int) :=
  match splitMax ' ' 2 hdr with
  | [_, recvPath, sizeS] =>
    match pythonInt (pyStrip sizeS) with
    | some n => some (recvPath, n)
    | none => none
  | _ => none

/-- `os.path.basename` (POSIX rule): everything after the last `/`; the
whole string when there is no `/`. -/
def posixBasename (s : Str) : Str :=
  match splitLastChar '/' s with
  | none => s
  | some p => p.2

/-- `os.path.join(a, b)` (POSIX rule) for the cases the client hits:
an absolute `b` replaces `a`; otherwise a single separator is inserted
unless `a` is empty or already ends in one. -/
def pyJoin (a b : Str) : Str :=
  if strStartsWith b ("/".toList) then b
  else if a = [] ∨ a.getLast? = some '/' then a ++ b
  else a ++ '/' :: b

/-- The payload receive loop of `request_get`:
`while remaining > 0 and time < deadline: chunk = ser.read(min(remaining, 4096))`,
writing each chunk and decrementing `remaining` by its length.  `avail`
is the list of raw bytes the device delivers before the absolute
deadline; when it is exhausted the loop spins on empty reads until the
deadline and exits.  Returns the final `remaining` and the bytes
written to the output file. -/
def recvLoopFuel : Nat → Int → List Nat → List Nat → Int × List Nat
  | 0, remaining, _, written => (remaining, written)
  | fuel + 1, remaining, avail, written =>
    if 0 < remaining ∧ avail ≠ [] then
      let k := min remaining.toNat 4096
      let chunk := avail.take k
      recvLoopFuel fuel (remaining - chunk.length) (avail.drop k)
        (written ++ chunk)
    else (remaining, written)

/-- The loop with enough fuel to run to completion: every iteration
consumes at least one available byte, so `avail.length` iterations
always reach `remaining ≤ 0` or an exhausted `avail`.  (The fuel is an
embedding artifact making the recursion structural; `recvLoopFuel_spec`
below shows the result is fuel-independent past this bound.) -/
def recvLoop (remaining : Int) (avail : List Nat) (written : List Nat) :
    Int × List Nat :=
  recvLoopFuel avail.length remaining avail written

/-- The distinct outcomes of `request_get`, one per return point of the
code: header timeout, `ERR:` line, unexpected header, header parse
failure, short read (`remaining != 0`), missing/bad `FILEEND` footer,
and success.  The boolean the function returns is `outcome = ok`. -/
inductive GetOutcome where
  | noHeader | deviceErr | unexpectedHeader | headerParseFail
  | shortRead | badFooter | ok
deriving DecidableEq, Repr

/-- The response the device produces to one `#GET`: the header line read
by `read_line` (`none` = timeout), the raw payload bytes that arrive
before the file deadline, and the footer line read after the payload
loop (`none` = timeout). -/
structure GetInput where
  header : Option Str
  payload : List Nat
  footer : Option Str
deriving DecidableEq, Repr

/-- One call of `request_get(ser, path, out_dir)`, given the device's
response: returns the outcome and, when a file was opened, the file
written — its path `os.path.join(out_dir, basename(recv_path.strip()))`
and its final byte content.  The file is opened (created or truncated)
as soon as the header parses, before any payload byte is read. -/
def requestGet (inp : GetInput) (out_dir : Str) :
    GetOutcome × Option (Str × List Nat) :=
  match inp.header with
  | none => (.noHeader, none)
  | some hdr =>
    if strStartsWith hdr ("ERR:".toList) then (.deviceErr, none)
    else if !strStartsWith hdr ("FILEBEGIN ".toList) then
      (.unexpectedHeader, none)
    else
      match parseHeader hdr with
      | none => (.headerParseFail, none)
      | some (recvPath, size) =>
        let fname := posixBasename (pyStrip recvPath)
        let outPath := pyJoin out_dir fname
        let r := recvLoop size inp.payload []
        if r.1 ≠ 0 then (.shortRead, some (outPath, r.2))
        else
          match inp.footer with
          | none => (.badFooter, some (outPath, r.2))
          | some f =>
            if strStartsWith f ("FILEEND".toList) then
              (.ok, some (outPath, r.2))
            else (.badFooter, some (outPath, r.2))

/-- The boolean `request_get` returns: `True` exactly on the `[OK]`
path. -/
def getSuccess (r : GetOutcome × Option (Str × List Nat)) : Bool :=
  r.1 = GetOutcome.ok

/-! ## The batch loop and exit paths of `main` -/

/-- The download loop of `main`: one `request_get` per target, counting
successes (`ok`), collecting each call's result; a failed download
prints `[FAIL]` and the loop continues.  The summary line prints the
success count over the number of targets. -/
def mainLoop (d : Str) : List GetInput → Nat × List (GetOutcome × Option (Str × List Nat))
  | [] => (0, [])
  | inp :: rest =>
    let r := requestGet inp d
    let rec_ := mainLoop d rest
    ((if getSuccess r then rec_.1 + 1 else rec_.1), r :: rec_.2)

/-- The return paths of `main`, in source order. -/
inductive ExitPath where
  | noPort | openFail | emptyList | selParseFail | noTargets | done
deriving DecidableEq, Repr

/-- The environment of one run of `main`: whether a port was found and
opened, the lines answering `#LIST`, the `--all` flag, the parsed
selection indices (`none` = the `input()` parse failed), and the device
responses to the `#GET`s. -/
structure MainInput where
  portFound : Bool
  openOk : Bool
  listLines : List Str
  allFlag : Bool
  sel : Option (List Int)
  responses : List GetInput

/-- Control flow of `main`: which return path is taken and whether
`ser.close()` runs before it.  The only `ser.close()` call in the code
sits after the summary print at the end of the normal path; the early
`return`s (no port, open failure, empty listing, selection parse
failure, no targets) bypass it. -/
def mainModel (m : MainInput) : ExitPath × Bool :=
  if !m.portFound then (.noPort, false)
  else if !m.openOk then (.openFail, false)
  else
    let files := requestList m.listLines
    if files.isEmpty then (.emptyList, false)
    else
      let targets? : Option (List (Str × Int)) :=
        if m.allFlag then some files
        else match m.sel with
          | none => none
          | some idxs =>
            some (idxs.filterMap (fun i =>
              if 0 ≤ i ∧ i < (files.length : Int) then files[i.toNat]?
              else none))
      match targets? with
      | none => (.selParseFail, false)
      | some targets =>
        if targets.isEmpty then (.noTargets, false)
        else (.done, true)

/-! ## Helper lemmas -/

theorem startsWith_ne_first (s : Str) (a b : Char) (pa pb : Str)
    (hne : b ≠ a) (h : strStartsWith s (a :: pa) = true) :
    strStartsWith s (b :: pb) = false := by
  cases s with
  | nil => simp [strStartsWith, List.isPrefixOf]
  | cons c cs =>
    simp only [strStartsWith, List.isPrefixOf, Bool.and_eq_true,
      beq_iff_eq] at h
    rcases h with ⟨h1, -⟩
    subst h1
    have hb : (b == a) = false := beq_eq_false_iff_ne.mpr hne
    simp [strStartsWith, List.isPrefixOf, hb]

theorem splitLastChar_isSome (c : Char) (s : Str) :
    (splitLastChar c s).isSome = true ↔ c ∈ s := by
  induction s with
  | nil => simp [splitLastChar]
  | cons x xs ih =>
    simp only [splitLastChar]
    cases hx : splitLastChar c xs with
    | some p =>
      rw [hx] at ih
      simp only [Option.isSome_some, true_iff] at ih
      simp [List.mem_cons, ih]
    | none =>
      rw [hx] at ih
      simp only [Option.isSome_none] at ih
      by_cases hc : x = c
      · subst hc; simp
      · simp only [hc, if_false, Option.isSome_none, List.mem_cons]
        constructor
        · intro hfalse; exact absurd hfalse (by simp)
        · rintro (h1 | h2)
          · exact absurd h1.symm hc
          · exact absurd (ih.mpr h2) (by simp)

theorem splitLastChar_none_iff (c : Char) (s : Str) :
    splitLastChar c s = none ↔ c ∉ s := by
  rw [← splitLastChar_isSome c s]
  cases splitLastChar c s <;> simp

theorem splitLastChar_some_not_mem (c : Char) :
    ∀ s a b : Str, splitLastChar c s = some (a, b) → c ∉ b := by
  intro s
  induction s with
  | nil => intro a b h; simp [splitLastChar] at h
  | cons x xs ih =>
    intro a b h
    simp only [splitLastChar] at h
    cases hx : splitLastChar c xs with
    | some p =>
      rw [hx] at h
      simp only [Option.some.injEq, Prod.mk.injEq] at h
      exact h.2 ▸ ih p.1 p.2 (by rw [hx])
    | none =>
      rw [hx] at h
      by_cases hc : x = c
      · simp only [hc, if_true, Option.some.injEq, Prod.mk.injEq] at h
        exact h.2 ▸ (splitLastChar_none_iff c xs).mp hx
      · simp [hc] at h

theorem splitLastChar_sep (c : Char) (p t : Str) (h : c ∉ t) :
    splitLastChar c (p ++ c :: t) = some (p, t) := by
  induction p with
  | nil =>
    simp only [List.nil_append, splitLastChar]
    rw [(splitLastChar_none_iff c t).mpr h]
    simp
  | cons x xs ih =>
    simp only [List.cons_append, splitLastChar, List.append_eq, ih]

theorem posixBasename_no_slash (s : Str) : '/' ∉ posixBasename s := by
  unfold posixBasename
  cases hs : splitLastChar '/' s with
  | none => exact (splitLastChar_none_iff '/' s).mp hs
  | some p => exact splitLastChar_some_not_mem '/' s p.1 p.2 hs

/-! ## `request_list` helper lemmas -/

theorem parseListLine_mk (p t : Str) (s : Int) (h : wfEntry p t s) :
    parseListLine (mkListLine p t) = some (p, s) := by
  obtain ⟨h1, h2, h3⟩ := h
  unfold parseListLine mkListLine
  rw [show ("LIST:".toList : Str) = ['L', 'I', 'S', 'T', ':'] from rfl]
  rw [show (['L', 'I', 'S', 'T', ':'] ++ p ++ ':' :: t).drop 5
        = p ++ ':' :: t from rfl]
  rw [splitLastChar_sep ':' p t h2]
  simp only [h3, h1]

theorem startsWith_mk (p t : Str) :
    strStartsWith (mkListLine p t) ("LIST:".toList) = true := by
  unfold strStartsWith mkListLine
  rw [List.isPrefixOf_iff_prefix, List.append_assoc]
  exact List.prefix_append _ _

theorem requestList_map_parse (entries : List (Str × Str × Int))
    (h : ∀ e ∈ entries, wfEntry e.1 e.2.1 e.2.2) :
    requestList (entries.map fun e => mkListLine e.1 e.2.1)
      = entries.map fun e => (e.1, e.2.2) := by
  induction entries with
  | nil => rfl
  | cons e es ih =>
    simp only [List.map_cons, requestList, startsWith_mk, if_true,
      parseListLine_mk e.1 e.2.1 e.2.2 (h e (by simp))]
    exact congrArg _ (ih fun x hx => h x (by simp [hx]))

theorem requestList_skip_then_parse (bad : Str)
    (hb1 : strStartsWith bad ("LIST:".toList) = true)
    (hb2 : parseListLine bad = none)
    (entries : List (Str × Str × Int))
    (h : ∀ e ∈ entries, wfEntry e.1 e.2.1 e.2.2) :
    requestList (bad :: entries.map fun e => mkListLine e.1 e.2.1)
      = entries.map fun e => (e.1, e.2.2) := by
  simp only [requestList, hb1, if_true, hb2]
  exact requestList_map_parse entries h

/-! ## Receive-loop lemmas -/

theorem recvLoopFuel_spec :
    ∀ (fuel : Nat) (avail : List Nat) (remaining : Int)
      (written : List Nat), avail.length ≤ fuel → 0 ≤ remaining →
      recvLoopFuel fuel remaining avail written
        = (remaining - min remaining (avail.length : Int),
           written ++ avail.take remaining.toNat) := by
  intro fuel
  induction fuel with
  | zero =>
    intro avail remaining written hf hr
    have : avail = [] := List.eq_nil_of_length_eq_zero (by omega)
    subst this
    simp only [recvLoopFuel, List.length_nil, Nat.cast_zero,
      List.take_nil, List.append_nil]
    have : min remaining (0 : Int) = 0 := by omega
    rw [this]; rw [sub_zero]
  | succ fuel ih =>
    intro avail remaining written hf hr
    rw [recvLoopFuel]
    by_cases hg : 0 < remaining ∧ avail ≠ []
    · rw [if_pos hg]
      have hlenpos : 0 < avail.length := List.length_pos.mpr hg.2
      have hk1 : 1 ≤ min remaining.toNat 4096 := by omega
      have hlt : (avail.take (min remaining.toNat 4096)).length
          = min (min remaining.toNat 4096) avail.length := by
        simp [List.length_take]
      have hrec := ih (avail.drop (min remaining.toNat 4096))
        (remaining - ↑(avail.take (min remaining.toNat 4096)).length)
        (written ++ avail.take (min remaining.toNat 4096))
        (by simp only [List.length_drop]; omega)
        (by rw [hlt]; omega)
      rw [hrec, Prod.mk.injEq]
      refine ⟨?_, ?_⟩
      · -- the remaining-count component
        simp only [List.length_drop, hlt]
        omega
      · -- the written-bytes component
        rw [List.append_assoc]
        congr 1
        by_cases hcase : avail.length ≤ min remaining.toNat 4096
        · rw [List.drop_of_length_le hcase, List.take_nil,
            List.append_nil, List.take_of_length_le hcase,
            List.take_of_length_le]
          omega
        · push_neg at hcase
          have hc : (avail.take (min remaining.toNat 4096)).length
              = min remaining.toNat 4096 := by rw [hlt]; omega
          rw [hc]
          have htn : (remaining - ↑(min remaining.toNat 4096)).toNat
              = remaining.toNat - min remaining.toNat 4096 := by omega
          rw [htn, ← List.take_add]
          congr 1
          omega
    · rw [if_neg hg]
      push_neg at hg
      by_cases ha : avail = []
      · subst ha
        simp only [List.length_nil, Nat.cast_zero, List.take_nil,
          List.append_nil]
        have : min remaining (0 : Int) = 0 := by omega
        rw [this, sub_zero]
      · have h0 : remaining = 0 := by
          rcases lt_or_eq_of_le hr with h | h
          · exact absurd (hg h) ha
          · exact h.symm
        subst h0
        simp only [Int.toNat_zero, List.take_zero, List.append_nil]
        have : min (0 : Int) (avail.length : Int) = 0 := by
          have : (0 : Int) ≤ avail.length := by positivity
          omega
        rw [this, sub_zero]

theorem recvLoop_spec (remaining : Int) (avail : List Nat)
    (written : List Nat) (hr : 0 ≤ remaining) :
    recvLoop remaining avail written
      = (remaining - min remaining (avail.length : Int),
         written ++ avail.take remaining.toNat) :=
  recvLoopFuel_spec avail.length avail remaining written le_rfl hr

theorem recvLoop_neg (remaining : Int) (avail : List Nat)
    (written : List Nat) (hr : remaining < 0) :
    recvLoop remaining avail written = (remaining, written) := by
  unfold recvLoop
  cases avail.length with
  | zero => rfl
  | succ n =>
    rw [recvLoopFuel, if_neg]
    rintro ⟨h1, -⟩
    omega

/-! ## `request_get` helper lemmas -/

theorem requestGet_after_header (inp : GetInput) (d hdr path : Str)
    (size : Int) (hh : inp.header = some hdr)
    (hfb : strStartsWith hdr ("FILEBEGIN ".toList) = true)
    (hp : parseHeader hdr = some (path, size)) :
    requestGet inp d =
      (fun r : Int × List Nat =>
        if r.1 ≠ 0 then
          (GetOutcome.shortRead,
           some (pyJoin d (posixBasename (pyStrip path)), r.2))
        else
          match inp.footer with
          | none =>
            (GetOutcome.badFooter,
             some (pyJoin d (posixBasename (pyStrip path)), r.2))
          | some f =>
            if strStartsWith f ("FILEEND".toList) then
              (GetOutcome.ok,
               some (pyJoin d (posixBasename (pyStrip path)), r.2))
            else
              (GetOutcome.badFooter,
               some (pyJoin d (posixBasename (pyStrip path)), r.2)))
      (recvLoop size inp.payload []) := by
  have herr : strStartsWith hdr ("ERR:".toList) = false :=
    startsWith_ne_first hdr 'F' 'E' ("ILEBEGIN ".toList) ("RR:".toList)
      (by decide) hfb
  simp only [requestGet, hh, herr, hfb, hp, Bool.not_true,
    Bool.false_eq_true, if_false]

theorem recvLoop_written (size : Int) (avail : List Nat) :
    (recvLoop size avail []).2 = avail.take size.toNat := by
  rcases lt_or_le size 0 with hneg | hpos
  · rw [recvLoop_neg size avail [] hneg, Int.toNat_of_nonpos (le_of_lt hneg),
      List.take_zero]
  · rw [recvLoop_spec size avail [] hpos]
    exact List.nil_append _

theorem requestGet_writes (inp : GetInput) (d hdr path : Str) (size : Int)
    (hh : inp.header = some hdr)
    (hfb : strStartsWith hdr ("FILEBEGIN ".toList) = true)
    (hp : parseHeader hdr = some (path, size)) :
    (requestGet inp d).2
      = some (pyJoin d (posixBasename (pyStrip path)),
              (recvLoop size inp.payload []).2) := by
  rw [requestGet_after_header inp d hdr path size hh hfb hp]
  by_cases h1 : (recvLoop size inp.payload []).1 ≠ 0
  · simp [h1]
  · cases hf : inp.footer with
    | none => simp [h1, hf]
    | some f =>
      simp only [h1, if_false, hf]
      split <;> rfl

theorem requestGet_exact (inp : GetInput) (d hdr path : Str) (size : Int)
    (hh : inp.header = some hdr)
    (hfb : strStartsWith hdr ("FILEBEGIN ".toList) = true)
    (hp : parseHeader hdr = some (path, size))
    (hlen : (inp.payload.length : Int) = size) :
    requestGet inp d
      = ((match inp.footer with
          | none => GetOutcome.badFooter
          | some f =>
            if strStartsWith f ("FILEEND".toList) then GetOutcome.ok
            else GetOutcome.badFooter),
         some (pyJoin d (posixBasename (pyStrip path)), inp.payload)) := by
  have h0 : 0 ≤ size := by omega
  have hmin : min size ((inp.payload.length : Int))
      = size := by omega
  have htake : inp.payload.take size.toNat = inp.payload :=
    List.take_of_length_le (by omega)
  rw [requestGet_after_header inp d hdr path size hh hfb hp,
    recvLoop_spec size inp.payload [] h0, hmin, sub_self, htake]
  simp only [List.nil_append]
  rw [if_neg (fun hcon => hcon rfl)]
  cases hf : inp.footer with
  | none => simp only [hf]
  | some f =>
    simp only [hf]
    split <;> rfl

theorem mainLoop_append (d : Str) (a b : List GetInput) :
    mainLoop d (a ++ b)
      = ((mainLoop d a).1 + (mainLoop d b).1,
         (mainLoop d a).2 ++ (mainLoop d b).2) := by
  induction a with
  | nil => simp [mainLoop]
  | cons x xs ih =>
    simp only [List.cons_append, mainLoop, List.append_eq, ih]
    by_cases h : getSuccess (requestGet x d) = true
    · simp only [h, if_true, Prod.mk.injEq, List.cons_append,
        and_true]
      omega
    · rw [Bool.not_eq_true] at h
      simp [h]

theorem requestList_parse_leading (entries : List (Str × Str × Int))
    (h : ∀ e ∈ entries, wfEntry e.1 e.2.1 e.2.2) (rest : List Str) :
    requestList ((entries.map fun e => mkListLine e.1 e.2.1) ++ rest)
      = (entries.map fun e => (e.1, e.2.2)) ++ requestList rest := by
  induction entries with
  | nil => simp
  | cons x xs ih =>
    simp only [List.map_cons, List.cons_append, requestList,
      startsWith_mk, if_true,
      parseListLine_mk x.1 x.2.1 x.2.2 (h x (by simp))]
    exact congrArg _ (ih fun e he => h e (by simp [he]))

/-! ## The claims -/

/-- **C1** (functional correctness): when `request_get` receives a
header parsing as `FILEBEGIN <path> <size>`, then exactly `<size>`
payload bytes within the deadline, success is decided by the footer:
with a footer line starting with `FILEEND` the call succeeds and the
file written under the output directory is byte-identical to the
transmitted payload; with the footer line absent (timeout) or not
starting with `FILEEND`, the call fails despite the byte-count
match. -/
theorem requestGet_success_requires_footer (inp : GetInput)
    (d hdr path : Str) (size : Int) (hh : inp.header = some hdr)
    (hfb : strStartsWith hdr ("FILEBEGIN ".toList) = true)
    (hp : parseHeader hdr = some (path, size))
    (hlen : (inp.payload.length : Int) = size) :
    (∀ f, inp.footer = some f →
      strStartsWith f ("FILEEND".toList) = true →
      requestGet inp d
        = (GetOutcome.ok,
           some (pyJoin d (posixBasename (pyStrip path)), inp.payload)))
    ∧ (inp.footer = none →
      requestGet inp d
        = (GetOutcome.badFooter,
           some (pyJoin d (posixBasename (pyStrip path)), inp.payload)))
    ∧ (∀ f, inp.footer = some f →
      strStartsWith f ("FILEEND".toList) = false →
      requestGet inp d
        = (GetOutcome.badFooter,
           some (pyJoin d (posixBasename (pyStrip path)), inp.payload))) := by
  have h := requestGet_exact inp d hdr path size hh hfb hp hlen
  refine ⟨?_, ?_, ?_⟩
  · intro f hf hfe
    have hfe' : strStartsWith f (['F', 'I', 'L', 'E', 'E', 'N', 'D'] : Str)
        = true := hfe
    rw [h, hf]
    simp [hfe']
  · intro hf
    rw [h, hf]
  · intro f hf hfe
    have hfe' : strStartsWith f (['F', 'I', 'L', 'E', 'E', 'N', 'D'] : Str)
        = false := hfe
    rw [h, hf]
    simp [hfe']

/-- Witness for C1: a 3-byte download with a valid footer succeeds
byte-identically; the same bytes with a wrong footer line fail. -/
theorem requestGet_success_requires_footer_witness :
    requestGet ⟨some "FILEBEGIN /logs/a.txt 3".toList, [10, 20, 30],
        some "FILEEND".toList⟩ "./downloaded_logs".toList
      = (GetOutcome.ok,
         some ("./downloaded_logs/a.txt".toList, [10, 20, 30]))
    ∧ requestGet ⟨some "FILEBEGIN /logs/a.txt 3".toList, [10, 20, 30],
        some "BOGUS".toList⟩ "./downloaded_logs".toList
      = (GetOutcome.badFooter,
         some ("./downloaded_logs/a.txt".toList, [10, 20, 30])) := by
  constructor
  · have h := requestGet_success_requires_footer
      ⟨some "FILEBEGIN /logs/a.txt 3".toList, [10, 20, 30],
        some "FILEEND".toList⟩ "./downloaded_logs".toList
      "FILEBEGIN /logs/a.txt 3".toList "/logs/a.txt".toList 3
      rfl (by decide) (by decide) (by decide)
    exact (h.1 "FILEEND".toList rfl (by decide)).trans (by decide)
  · have h := requestGet_success_requires_footer
      ⟨some "FILEBEGIN /logs/a.txt 3".toList, [10, 20, 30],
        some "BOGUS".toList⟩ "./downloaded_logs".toList
      "FILEBEGIN /logs/a.txt 3".toList "/logs/a.txt".toList 3
      rfl (by decide) (by decide) (by decide)
    exact (h.2.2 "BOGUS".toList rfl (by decide)).trans (by decide)

/-- **C2** (error handling): when the header announces size `S` but
fewer than `S` payload bytes arrive before the absolute deadline,
`request_get` reports a short-read failure, and the partial output file
remains (it is not deleted), containing exactly the bytes received —
no more and no fewer. -/
theorem requestGet_short_read_keeps_partial (inp : GetInput)
    (d hdr path : Str) (size : Int) (hh : inp.header = some hdr)
    (hfb : strStartsWith hdr ("FILEBEGIN ".toList) = true)
    (hp : parseHeader hdr = some (path, size))
    (hshort : (inp.payload.length : Int) < size) :
    requestGet inp d
      = (GetOutcome.shortRead,
         some (pyJoin d (posixBasename (pyStrip path)), inp.payload)) := by
  have h0 : 0 ≤ size := by omega
  have hmin : min size ((inp.payload.length : Int))
      = (inp.payload.length : Int) := by omega
  have htake : inp.payload.take size.toNat = inp.payload :=
    List.take_of_length_le (by omega)
  rw [requestGet_after_header inp d hdr path size hh hfb hp,
    recvLoop_spec size inp.payload [] h0, hmin, htake]
  simp only [List.nil_append]
  rw [if_pos (by omega : size - (inp.payload.length : Int) ≠ 0)]

/-- Witness for C2: size 3 announced, only 2 bytes arrive; shortRead
failure with exactly those 2 bytes on disk. -/
theorem requestGet_short_read_keeps_partial_witness :
    requestGet ⟨some "FILEBEGIN /logs/a.txt 3".toList, [10, 20],
        some "FILEEND".toList⟩ "./downloaded_logs".toList
      = (GetOutcome.shortRead,
         some ("./downloaded_logs/a.txt".toList, [10, 20])) := by
  have h := requestGet_short_read_keeps_partial
    ⟨some "FILEBEGIN /logs/a.txt 3".toList, [10, 20],
      some "FILEEND".toList⟩ "./downloaded_logs".toList
    "FILEBEGIN /logs/a.txt 3".toList "/logs/a.txt".toList 3
    rfl (by decide) (by decide) (by decide)
  exact h.trans (by decide)

/-- **C3** (functional correctness): a well-formed list response of `N`
entries `LIST:<path>:<size>` yields exactly `N` descriptors, in
received order, each a faithful `(path, size)` parse; the split is on
the LAST colon, so paths containing colons parse correctly. -/
theorem requestList_wellformed_faithful (entries : List (Str × Str × Int))
    (h : ∀ e ∈ entries, wfEntry e.1 e.2.1 e.2.2) :
    requestList (entries.map fun e => mkListLine e.1 e.2.1)
        = entries.map (fun e => (e.1, e.2.2))
    ∧ (requestList (entries.map fun e => mkListLine e.1 e.2.1)).length
        = entries.length := by
  have heq := requestList_map_parse entries h
  exact ⟨heq, by rw [heq, List.length_map]⟩

/-- Witness for C3: the line `LIST:/logs/a:b.txt:42` — a path with a
colon in it — parses to path `/logs/a:b.txt` and size `42`. -/
theorem requestList_wellformed_faithful_witness :
    requestList ["LIST:/logs/a:b.txt:42".toList]
      = [("/logs/a:b.txt".toList, 42)] := by
  have h := (requestList_wellformed_faithful
    [("/logs/a:b.txt".toList, "42".toList, (42 : Int))] (by decide)).1
  exact h.trans (by decide)

/-- **C4** (error handling): a malformed `LIST:` line (e.g. non-integer
size) contributes no descriptor, and listing does not terminate there —
valid entries after the malformed one still appear in the result. -/
theorem requestList_malformed_skipped (e1 e2 : List (Str × Str × Int))
    (bad : Str) (hb1 : strStartsWith bad ("LIST:".toList) = true)
    (hb2 : parseListLine bad = none)
    (h1 : ∀ e ∈ e1, wfEntry e.1 e.2.1 e.2.2)
    (h2 : ∀ e ∈ e2, wfEntry e.1 e.2.1 e.2.2) :
    requestList ((e1.map fun e => mkListLine e.1 e.2.1)
        ++ bad :: (e2.map fun e => mkListLine e.1 e.2.1))
      = (e1.map fun e => (e.1, e.2.2))
        ++ (e2.map fun e => (e.1, e.2.2)) := by
  rw [requestList_parse_leading e1 h1,
    requestList_skip_then_parse bad hb1 hb2 e2 h2]

/-- Witness for C4: the non-integer-size line `LIST:/logs/x.txt:abc`
between two valid entries is skipped; both valid entries survive. -/
theorem requestList_malformed_skipped_witness :
    requestList ["LIST:/logs/a.txt:10".toList,
        "LIST:/logs/x.txt:abc".toList, "LIST:/logs/b.txt:20".toList]
      = [("/logs/a.txt".toList, 10), ("/logs/b.txt".toList, 20)] := by
  have h := requestList_malformed_skipped
    [("/logs/a.txt".toList, "10".toList, (10 : Int))]
    [("/logs/b.txt".toList, "20".toList, (20 : Int))]
    "LIST:/logs/x.txt:abc".toList
    (by decide) (by decide) (by decide) (by decide)
  exact h.trans (by decide)

/-- **C5** (safety): whenever `request_get` writes a file, the file's
path is `os.path.join(out_dir, basename(strip(announced path)))`, and
that basename contains no `/` separator — the name is derived from only
the final path component of the announced path, so the file sits
directly inside the configured output directory, never outside it. -/
theorem requestGet_output_inside_out_dir (inp : GetInput)
    (d hdr path : Str) (size : Int) (hh : inp.header = some hdr)
    (hfb : strStartsWith hdr ("FILEBEGIN ".toList) = true)
    (hp : parseHeader hdr = some (path, size)) :
    ∀ pth w, (requestGet inp d).2 = some (pth, w) →
      pth = pyJoin d (posixBasename (pyStrip path))
      ∧ '/' ∉ posixBasename (pyStrip path) := by
  intro pth w hsome
  rw [requestGet_writes inp d hdr path size hh hfb hp] at hsome
  simp only [Option.some.injEq, Prod.mk.injEq] at hsome
  exact ⟨hsome.1.symm, posixBasename_no_slash _⟩

/-- Witness for C5: a device announcing the traversal path
`../../etc/passwd` gets its payload written to
`./downloaded_logs/passwd`, inside the output directory. -/
theorem requestGet_output_inside_out_dir_witness :
    "./downloaded_logs/passwd".toList
      = pyJoin "./downloaded_logs".toList
          (posixBasename (pyStrip "../../etc/passwd".toList))
    ∧ '/' ∉ posixBasename (pyStrip "../../etc/passwd".toList) :=
  requestGet_output_inside_out_dir
    ⟨some "FILEBEGIN ../../etc/passwd 2".toList, [7, 8],
      some "FILEEND".toList⟩
    "./downloaded_logs".toList "FILEBEGIN ../../etc/passwd 2".toList
    "../../etc/passwd".toList 2 rfl (by decide) (by decide)
    "./downloaded_logs/passwd".toList [7, 8] (by decide)

/-- **C6** (error handling): a device answering a get request with an
`ERR:` line instead of a file header makes that download a device-error
failure (`return False` with nothing written), and in a batch the
downloads before and after it are unaffected: the result sequence keeps
their results around the failed one, and the success count — what the
summary reports over the total attempted — adds nothing for it. -/
theorem requestGet_deviceErr_batch_continues (inp : GetInput)
    (d hdr : Str) (pre post : List GetInput)
    (hh : inp.header = some hdr)
    (he : strStartsWith hdr ("ERR:".toList) = true) :
    requestGet inp d = (GetOutcome.deviceErr, none)
    ∧ mainLoop d (pre ++ inp :: post)
        = ((mainLoop d pre).1 + (mainLoop d post).1,
           (mainLoop d pre).2
             ++ (GetOutcome.deviceErr, none) :: (mainLoop d post).2) := by
  have herr : requestGet inp d = (GetOutcome.deviceErr, none) := by
    have he2 : strStartsWith hdr (['E', 'R', 'R', ':'] : Str) = true := he
    simp [requestGet, hh, he2]
  refine ⟨herr, ?_⟩
  rw [mainLoop_append]
  have hcons : mainLoop d (inp :: post)
      = ((mainLoop d post).1,
         (GetOutcome.deviceErr, none) :: (mainLoop d post).2) := by
    simp [mainLoop, herr, getSuccess]
  rw [hcons]

/-- Witness for C6: `ERR:disk read failed` in the middle of a batch of
three; the two valid downloads still succeed and the summary counts
2 successes out of 3 attempts. -/
theorem requestGet_deviceErr_batch_continues_witness :
    requestGet ⟨some "ERR:disk read failed".toList, [], none⟩
        "./downloaded_logs".toList = (GetOutcome.deviceErr, none)
    ∧ mainLoop "./downloaded_logs".toList
        [⟨some "FILEBEGIN /logs/a.txt 1".toList, [1],
            some "FILEEND".toList⟩,
         ⟨some "ERR:disk read failed".toList, [], none⟩,
         ⟨some "FILEBEGIN /logs/b.txt 1".toList, [2],
            some "FILEEND".toList⟩]
      = (2, [(GetOutcome.ok, some ("./downloaded_logs/a.txt".toList, [1])),
             (GetOutcome.deviceErr, none),
             (GetOutcome.ok, some ("./downloaded_logs/b.txt".toList, [2]))]) := by
  have h := requestGet_deviceErr_batch_continues
    ⟨some "ERR:disk read failed".toList, [], none⟩
    "./downloaded_logs".toList "ERR:disk read failed".toList
    [⟨some "FILEBEGIN /logs/a.txt 1".toList, [1], some "FILEEND".toList⟩]
    [⟨some "FILEBEGIN /logs/b.txt 1".toList, [2], some "FILEEND".toList⟩]
    rfl (by decide)
  exact ⟨h.1, h.2.trans (by decide)⟩

/-- **C9** (idempotence): two sequential `request_get` calls whose device
responses are identical and valid (header parses, exact byte count,
`FILEEND` footer) are two independent successful downloads with
identical written byte content — the batch counts two successes and
both results carry the same file path and bytes. -/
theorem requestGet_twice_identical (inp : GetInput) (d hdr path f : Str)
    (size : Int) (hh : inp.header = some hdr)
    (hfb : strStartsWith hdr ("FILEBEGIN ".toList) = true)
    (hp : parseHeader hdr = some (path, size))
    (hlen : (inp.payload.length : Int) = size)
    (hf : inp.footer = some f)
    (hfe : strStartsWith f ("FILEEND".toList) = true) :
    mainLoop d [inp, inp]
      = (2, [(GetOutcome.ok,
              some (pyJoin d (posixBasename (pyStrip path)), inp.payload)),
             (GetOutcome.ok,
              some (pyJoin d (posixBasename (pyStrip path)), inp.payload))]) := by
  have hfe' : strStartsWith f (['F', 'I', 'L', 'E', 'E', 'N', 'D'] : Str)
      = true := hfe
  have hok : requestGet inp d
      = (GetOutcome.ok,
         some (pyJoin d (posixBasename (pyStrip path)), inp.payload)) := by
    rw [requestGet_exact inp d hdr path size hh hfb hp hlen, hf]
    simp [hfe']
  simp [mainLoop, hok, getSuccess]

/-- Witness for C9: the same 2-byte file downloaded twice in a row gives
two `ok` results with identical content. -/
theorem requestGet_twice_identical_witness :
    mainLoop "./downloaded_logs".toList
        [⟨some "FILEBEGIN /logs/a.txt 2".toList, [5, 6],
            some "FILEEND".toList⟩,
         ⟨some "FILEBEGIN /logs/a.txt 2".toList, [5, 6],
            some "FILEEND".toList⟩]
      = (2, [(GetOutcome.ok, some ("./downloaded_logs/a.txt".toList, [5, 6])),
             (GetOutcome.ok, some ("./downloaded_logs/a.txt".toList, [5, 6]))]) := by
  have h := requestGet_twice_identical
    ⟨some "FILEBEGIN /logs/a.txt 2".toList, [5, 6],
      some "FILEEND".toList⟩
    "./downloaded_logs".toList "FILEBEGIN /logs/a.txt 2".toList
    "/logs/a.txt".toList "FILEEND".toList 2
    rfl (by decide) (by decide) (by decide) rfl (by decide)
  exact h.trans (by decide)

/-- **C7** counterexample: with a found port, a successful open and an
empty listing, `main` returns on the empty-listing path WITHOUT calling
`ser.close()` — refuting the claim that every exit path after a
successful open closes the serial link. -/
theorem mainModel_emptyList_leaves_link_open :
    mainModel ⟨true, true, [], true, none, []⟩
      = (ExitPath.emptyList, false) := by decide

/-- **C7** amended: `ser.close()` runs before process exit exactly on
the normal completion path (after the batch summary); every early
return — no port, open failure, empty listing, selection-parse failure,
no targets — leaves the link unclosed by the code. -/
theorem mainModel_closed_iff_done (m : MainInput) :
    (mainModel m).2 = true ↔ (mainModel m).1 = ExitPath.done := by
  unfold mainModel
  cases m.portFound with
  | false => simp
  | true =>
    cases m.openOk with
    | true =>
      simp only [Bool.not_true, Bool.false_eq_true, if_false]
      by_cases h1 : (requestList m.listLines).isEmpty
      · simp [h1]
      · simp only [h1, if_false]
        cases m.allFlag with
        | true =>
          simp only [if_true]
          by_cases h2 : (requestList m.listLines).isEmpty
          · exact absurd h2 h1
          · simp [h2]
        | false =>
          simp only [Bool.false_eq_true, if_false]
          cases m.sel with
          | none => simp
          | some idxs =>
            simp only []
            by_cases h3 : (idxs.filterMap (fun i =>
                if 0 ≤ i ∧ i < ((requestList m.listLines).length : Int)
                then (requestList m.listLines)[i.toNat]? else none)).isEmpty
            · simp [h3]
            · simp [h3]
    | false => simp

/-- Witness for the amended C7: a run that reaches the summary (one
listed file, `--all`, one response) is the `done` exit and does close
the link. -/
theorem mainModel_closed_iff_done_witness :
    (mainModel ⟨true, true, ["LIST:/logs/a.txt:1".toList], true, none,
        [⟨some "FILEBEGIN /logs/a.txt 1".toList, [1],
           some "FILEEND".toList⟩]⟩).1 = ExitPath.done :=
  (mainModel_closed_iff_done _).mp (by decide)

/-- **C8** counterexample: the list line `LIST:/logs/a.txt:-5` yields
the descriptor `(/logs/a.txt, -5)` with a NEGATIVE size — refuting the
claim that every descriptor produced by `request_list` has a
non-negative size. -/
theorem requestList_negative_size_cex :
    requestList ["LIST:/logs/a.txt:-5".toList]
        = [("/logs/a.txt".toList, -5)]
    ∧ (-5 : Int) < 0 := by decide

/-- **C8** amended: for every list line whose size field parses as an
integer, the descriptor's size equals that integer as parsed — negative
announced sizes are passed through unchanged, not rejected or
clamped. -/
theorem requestList_size_passthrough (p t : Str) (s : Int)
    (h : wfEntry p t s) :
    requestList [mkListLine p t] = [(p, s)] := by
  simpa using requestList_map_parse [(p, t, s)] (by simpa using h)

/-- Witness for the amended C8: `LIST:/logs/b.txt:-7` parses to the
descriptor `(/logs/b.txt, -7)`. -/
theorem requestList_size_passthrough_witness :
    requestList ["LIST:/logs/b.txt:-7".toList]
      = [("/logs/b.txt".toList, -7)] := by
  have h := requestList_size_passthrough "/logs/b.txt".toList
    "-7".toList (-7) (by decide)
  exact h.trans (by decide)

/-- **C10** counterexample: a header announcing size 0 with no payload
and a valid `FILEEND` footer is a SUCCESS (with an empty file), so "an
announced size of zero or less with no payload" is not always a
failure as the claim lists it. -/
theorem requestGet_zero_size_ok_cex :
    requestGet ⟨some "FILEBEGIN /logs/e.txt 0".toList, [],
        some "FILEEND".toList⟩ "./downloaded_logs".toList
      = (GetOutcome.ok, some ("./downloaded_logs/e.txt".toList, [])) := by
  decide

/-- **C10** amended: whenever `request_get` parses a valid `FILEBEGIN`
header it opens (creates or truncates) the destination file at
`out_dir/basename(path)` before any payload byte is received, so on
every outcome — in particular on short read, missing footer, or a
NEGATIVE announced size — the file exists and holds exactly the bytes
received so far, `payload.take size` (possibly zero bytes), having
overwritten any previous file of that name; a negative announced size
is always a short-read failure.  (Size exactly zero with a valid footer
is a success with an empty file, per the counterexample.) -/
theorem requestGet_file_written_on_header (inp : GetInput)
    (d hdr path : Str) (size : Int) (hh : inp.header = some hdr)
    (hfb : strStartsWith hdr ("FILEBEGIN ".toList) = true)
    (hp : parseHeader hdr = some (path, size)) :
    (requestGet inp d).2
      = some (pyJoin d (posixBasename (pyStrip path)),
              inp.payload.take size.toNat)
    ∧ (size < 0 → (requestGet inp d).1 = GetOutcome.shortRead) := by
  constructor
  · rw [requestGet_writes inp d hdr path size hh hfb hp, recvLoop_written]
  · intro hneg
    rw [requestGet_after_header inp d hdr path size hh hfb hp,
      recvLoop_neg size inp.payload [] hneg]
    simp only []
    rw [if_pos (by omega : size ≠ 0)]

/-- Witness for the amended C10: size 5 announced, one byte received,
footer missing — the file exists with exactly that one byte. -/
theorem requestGet_file_written_on_header_witness :
    (requestGet ⟨some "FILEBEGIN /logs/p.txt 5".toList, [9], none⟩
        "./downloaded_logs".toList).2
      = some ("./downloaded_logs/p.txt".toList, [9]) := by
  have h := (requestGet_file_written_on_header
    ⟨some "FILEBEGIN /logs/p.txt 5".toList, [9], none⟩
    "./downloaded_logs".toList "FILEBEGIN /logs/p.txt 5".toList
    "/logs/p.txt".toList 5 rfl (by decide) (by decide)).1
  exact h.trans (by decide)

end RcvLogs

